import Mathlib

/-!
# gome: scene lifecycle, mailbox and vertex-array layout

A shallow embedding of `scene.go`, the mailbox of `util.go` and
`VertexArray.SetLayout` of `common/graphics/buffer.go`.

Calls that leave the embedded code (methods of the `System` interface,
mailbox callbacks, the OpenGL binding) are recorded, in order, in a log; the
called code is assumed to return normally and not to touch the caller's
`Scene`, `mailBox` or `VertexArray` (a `System.Init` that appends to the
scene's lists, or a callback that calls `Listen`, is outside the model). The
one call that does not return is `gl.Ptr` on a `uint32` value, which panics.
`GetID()`, `GetComponents()` and `RequiredComponents()` are read as pure
getters. Identifiers and durations are passed through without arithmetic, so
`uint` and `time.Duration` are kept as `Nat` and `Int`.
-/

namespace Gome

/-! ## Data model -/

/-- Modelled from the spec: the `Component` interface is not in the sources; a
component exposes `Name()`, everything else (`data`) is opaque to the core. -/
structure Component where
  Name : String
  data : Nat
deriving DecidableEq

/-- Modelled from the spec: the `Entity` interface is not in the sources; it
exposes `GetID()` and `GetComponents()`, a `map[string]Component`, kept here as
an association list read with `List.lookup`. -/
structure Entity where
  ID : Nat
  Components : List (String × Component)
deriving DecidableEq

/-- Modelled from the spec: the code that fills an entity's map is not in the
sources; the map is "from component-name (string key) to Component instance",
so each component is stored under its own `Name()`. -/
def Entity.keyedByName (e : Entity) : Prop :=
  ∀ kv ∈ e.Components, kv.2.Name = kv.1

instance (e : Entity) : Decidable e.keyedByName := by
  unfold Entity.keyedByName; infer_instance

/-- Modelled from the spec: the `System` interface is not in the sources; the
embedding needs its identity and `RequiredComponents()`. `Init`, `Add` and
`Update` are external and appear as `Call`s. -/
structure System where
  Name : String
  RequiredComponents : List String
deriving DecidableEq

/-- Source: `type Scene struct { Entities []Entity; Systems []System }` -/
structure Scene where
  Entities : List Entity
  Systems : List System
deriving DecidableEq

/-- One invocation of a `System` method, as made by the `Scene`. -/
inductive Call where
  | Init (system : System) (scene : Scene)
  | Add (system : System) (id : Nat) (components : List Component)
  | Update (system : System) (delta : Int)
deriving DecidableEq

/-! ## scene.go -/

/-- Source: `func (s *Scene) Update(delta time.Duration)`: returns the scene after the
call and the calls made. -/
def Scene.Update (s : Scene) (delta : Int) : Scene × List Call :=
  (s, s.Systems.foldl (fun log system => log ++ [Call.Update system delta]) [])

/-- Lines 27-34 of `Scene.Init`: the `supply` slice built for one entity. -/
def Scene.supply (required : List String) (components : List (String × Component)) :
    List Component :=
  required.foldl
    (fun supply requirement =>
      match components.lookup requirement with
      | some val => supply ++ [val]
      | none => supply)
    []

/-- Lines 26-40 of `Scene.Init`: the loop over the entities for one system. -/
def Scene.addEntities (s : Scene) (system : System) (log : List Call) : List Call :=
  let required := system.RequiredComponents
  s.Entities.foldl
    (fun log entity =>
      let components := entity.Components
      let supply := Scene.supply required components
      if required.length = supply.length then
        log ++ [Call.Add system entity.ID supply]
      else
        log)
    log

/-- Source: `func (s *Scene) Init()`: returns the scene after the call and the calls
made. -/
def Scene.Init (s : Scene) : Scene × List Call :=
  let log := s.Systems.foldl (fun log system => log ++ [Call.Init system s]) []
  let log := s.Systems.foldl (fun log system => Scene.addEntities s system log) log
  (s, log)

/-- Every name of `required` is a key of the entity's component map. -/
def Entity.satisfies (e : Entity) (required : List String) : Prop :=
  ∀ r ∈ required, r ∈ e.Components.map Prod.fst

instance (e : Entity) (required : List String) : Decidable (e.satisfies required) := by
  unfold Entity.satisfies; infer_instance

def Call.isAdd : Call → Bool
  | Call.Add _ _ _ => true
  | _ => false

/-- The calls made by lines 27-39 for one system and one entity. -/
def Scene.addCall (system : System) (entity : Entity) : List Call :=
  if system.RequiredComponents.length
      = (Scene.supply system.RequiredComponents entity.Components).length then
    [Call.Add system entity.ID (Scene.supply system.RequiredComponents entity.Components)]
  else []

/-! ## util.go: the mailbox -/

/-- Source: `type Message interface { Name() string }`; the content of a message is
opaque to the mailbox. -/
structure Message where
  Name : String
  payload : Nat
deriving DecidableEq

/-- A `func(Message)` value, known to the mailbox only by its identity. -/
abbrev Callback := Nat

/-- Source: `m[k]` on a Go map: the zero value (a nil slice) when the key is missing. -/
def mapGet {V : Type} (m : List (String × List V)) (k : String) : List V :=
  (m.lookup k).getD []

/-- Source: `m[k] = v` on a Go map: replaces the entry of `k`, or adds one. -/
def mapSet {V : Type} : List (String × V) → String → V → List (String × V)
  | [], k, v => [(k, v)]
  | (k', v') :: m, k, v => if k' = k then (k, v) :: m else (k', v') :: mapSet m k v

/-- Source: `type mailBox struct { listeners map[string][]func(Message) }` -/
structure mailBox where
  listeners : List (String × List Callback)
deriving DecidableEq

/-- Source: `var MailBox *mailBox = &mailBox{make(map[string][]func(Message))}` -/
def MailBox : mailBox := ⟨[]⟩

/-- Source: `func (mb *mailBox) Send(msg Message)`: returns the mailbox after the call
and the callback invocations made, each with the message it received. -/
def mailBox.Send (mb : mailBox) (msg : Message) : mailBox × List (Callback × Message) :=
  (mb, (mapGet mb.listeners msg.Name).foldl (fun log f => log ++ [(f, msg)]) [])

/-- Source: `func (mb *mailBox) Listen(msgName string, fun func(Message))` -/
def mailBox.Listen (mb : mailBox) (msgName : String) (f : Callback) : mailBox :=
  { mb with listeners := mapSet mb.listeners msgName (mapGet mb.listeners msgName ++ [f]) }

/-- A sequence of `Listen` calls, first to last. -/
def mailBox.listenAll (mb : mailBox) (regs : List (String × Callback)) : mailBox :=
  regs.foldl (fun mb r => mb.Listen r.1 r.2) mb

/-! ## common/graphics/buffer.go -/

/-- Source: `type ElementType uint32` -/
abbrev ElementType := Nat

def VEC2 : ElementType := 0
def VEC3 : ElementType := 1
def VEC4 : ElementType := 2
def FVEC2 : ElementType := 3
def FVEC3 : ElementType := 4
def FVEC4 : ElementType := 5

/-- Source: `func (et ElementType) getByteSize() (size int)` -/
def getByteSize (et : ElementType) : Int :=
  match et with
  | 0 => 4 * 2
  | 1 => 4 * 3
  | 2 => 4 * 4
  | 3 => 4 * 2
  | 4 => 4 * 3
  | 5 => 4 * 4
  | _ => 0

/-- Source: `func (et ElementType) getGLType() (gltype uint32)`, with the values of
`gl.INT_VEC2` .. `gl.FLOAT_VEC4` of the OpenGL headers. -/
def getGLType (et : ElementType) : Nat :=
  match et with
  | 0 => 0x8B53
  | 1 => 0x8B54
  | 2 => 0x8B55
  | 3 => 0x8B50
  | 4 => 0x8B51
  | 5 => 0x8B52
  | _ => 0

/-- Source: `type VertexLayout struct { layout []ElementType }` -/
structure VertexLayout where
  layout : List ElementType
deriving DecidableEq

/-- Source: `func (vbl *VertexLayout) Push(eType ElementType)` -/
def VertexLayout.Push (vbl : VertexLayout) (eType : ElementType) : VertexLayout :=
  { vbl with layout := vbl.layout ++ [eType] }

/-- Source: `func (vbl *VertexLayout) stride() int` -/
def VertexLayout.stride (vbl : VertexLayout) : Int :=
  vbl.layout.foldl (fun size i => size + getByteSize i) 0

/-- Source: `type VertexArray struct`; the `interface{}` values of `data` are opaque. -/
structure VertexArray where
  layout : VertexLayout
  data : List Nat
  vao : Nat
  ibo : Nat
  vbos : List Nat
deriving DecidableEq

/-- The conversion `uint32(x)`. -/
def toUint32 (x : Int) : Nat := (x % 2 ^ 32).toNat

/-- The conversion `int32(x)`. -/
def toInt32 (x : Int) : Int := (x + 2 ^ 31) % 2 ^ 32 - 2 ^ 31

/-- A call into the OpenGL binding made by `SetLayout`. -/
inductive GLCall where
  | GenVertexArrays (n : Int) (array : Nat)
  | BindVertexArray (array : Nat)
  | VertexAttribPointer (index : Nat) (size : Int) (xtype : Nat) (normalized : Bool)
      (stride : Int) (pointer : Nat)
  | EnableVertexAttribArray (index : Nat)
deriving DecidableEq

/-- The OpenGL context, an external collaborator: the next unused vertex-array
name and the calls received so far. -/
structure GLContext where
  next : Nat
  calls : List GLCall
deriving DecidableEq

/-- Source: `gl.GenVertexArrays(1, &name)`: hands out an unused name. -/
def GLContext.GenVertexArrays (gl : GLContext) : Nat × GLContext :=
  let name := gl.next % 2 ^ 32
  (name, { next := gl.next + 1, calls := gl.calls ++ [GLCall.GenVertexArrays 1 name] })

def GLContext.call (gl : GLContext) (c : GLCall) : GLContext :=
  { gl with calls := gl.calls ++ [c] }

/-- Source: `gl.Ptr(uint32(offset))` at line 111. The binding's `gl.Ptr` takes a
pointer, a `uintptr` or a slice and panics on a value of any other kind, a
`uint32` among them: `none` is the panic. -/
def glPtr (_ : Nat) : Option Nat := none

/-- How a call ends: it returns, or it panics; either way with the vertex array
and the OpenGL context as they are at that point. -/
inductive Outcome where
  | returned (va : VertexArray) (gl : GLContext)
  | panicked (va : VertexArray) (gl : GLContext)
deriving DecidableEq

/-- Lines 106-114 of `SetLayout`: the loop `for i, elem := range va.layout.layout`,
entered at index `i` with the running `offset`; returns the final `offset`, or
the context at the panic of `gl.Ptr`, whose value is computed before
`gl.VertexAttribPointer` is called. -/
def attribLoop : List ElementType → Nat → Int → Int → GLContext →
    Except GLContext (GLContext × Int)
  | [], _, _, offset, gl => Except.ok (gl, offset)
  | elem :: rest, i, stride, offset, gl =>
    match glPtr (toUint32 offset) with
    | none => Except.error gl
    | some pointer =>
      let gl := gl.call (GLCall.VertexAttribPointer (toUint32 i) (toInt32 (getByteSize elem))
        (getGLType elem) false (toInt32 stride) pointer)
      let gl := gl.call (GLCall.EnableVertexAttribArray (toUint32 i))
      attribLoop rest (i + 1) stride (offset + getByteSize elem) gl

/-- Source: `func (va *VertexArray) SetLayout(layout VertexLayout)`: the vertex array
and the OpenGL context when the call ends. A Go `int` holds the byte sums: a
slice is too short for 16 bytes per element to overflow it. -/
def VertexArray.SetLayout (va : VertexArray) (layout : VertexLayout) (gl : GLContext) :
    Outcome :=
  if va.layout.layout.length ≠ 0 then
    Outcome.returned va gl
  else
    let va := { va with layout := layout }
    let (name, gl) := gl.GenVertexArrays
    let va := { va with vao := name }
    let gl := gl.call (GLCall.BindVertexArray va.vao)
    let offset : Int := 0
    let stride : Int := va.layout.layout.foldl (fun stride elem => stride + getByteSize elem) 0
    match attribLoop va.layout.layout 0 stride offset gl with
    | Except.error gl => Outcome.panicked va gl
    | Except.ok (gl, _) =>
      let va := { va with vbos := List.replicate layout.layout.length 0 }
      Outcome.returned va gl

/-! ## Example data -/

def positionComponent : Component := ⟨"Position", 1⟩
def renderComponent : Component := ⟨"Render", 2⟩

/-- An entity holding `Render` and `Position`, attached in that order. -/
def fullEntity : Entity := ⟨1, [("Render", renderComponent), ("Position", positionComponent)]⟩

/-- An entity holding `Position` only. -/
def positionEntity : Entity := ⟨2, [("Position", positionComponent)]⟩

def drawSystem : System := ⟨"Draw", ["Position", "Render"]⟩
def moveSystem : System := ⟨"Move", ["Position"]⟩

def demoScene : Scene := ⟨[fullEntity, positionEntity], [drawSystem, moveSystem]⟩

/-- A scene with systems and no entity. -/
def emptyEntitiesScene : Scene := ⟨[], [drawSystem, moveSystem]⟩

/-- A vertex array on which no layout has been set. -/
def freshArray : VertexArray := ⟨⟨[]⟩, [], 0, 0, []⟩

def freshGL : GLContext := ⟨1, []⟩

/-! ## Loop lemmas -/

theorem foldl_log {α β : Type} (f : α → List β) (l : List α) (init : List β) :
    l.foldl (fun log x => log ++ f x) init = init ++ l.flatMap f := by
  induction l generalizing init with
  | nil => simp
  | cons a l ih => simp [ih, List.append_assoc]

theorem foldl_log_map {α β : Type} (f : α → β) (l : List α) (init : List β) :
    l.foldl (fun log x => log ++ [f x]) init = init ++ l.map f := by
  induction l generalizing init with
  | nil => simp
  | cons a l ih => simp [ih]

theorem supply_eq (required : List String) (components : List (String × Component)) :
    Scene.supply required components = required.filterMap (fun r => components.lookup r) := by
  have h : ∀ init : List Component,
      required.foldl
        (fun supply requirement =>
          match components.lookup requirement with
          | some val => supply ++ [val]
          | none => supply)
        init = init ++ required.filterMap (fun r => components.lookup r) := by
    induction required with
    | nil => simp
    | cons a l ih =>
      intro init
      simp only [List.foldl_cons, ih, List.filterMap_cons]
      cases components.lookup a <;> simp
  simpa [Scene.supply] using h []

theorem lookup_isSome_iff (components : List (String × Component)) (r : String) :
    (components.lookup r).isSome ↔ r ∈ components.map Prod.fst := by
  induction components with
  | nil => simp
  | cons kv rest ih =>
    obtain ⟨k, v⟩ := kv
    by_cases h : r = k
    · subst h; simp
    · have hb : (r == k) = false := by simpa using h
      simp [List.lookup_cons, hb, ih, h]

theorem filterMap_length_le {α β : Type} (g : α → Option β) (l : List α) :
    (l.filterMap g).length ≤ l.length := by
  induction l with
  | nil => simp
  | cons a l ih =>
    simp only [List.filterMap_cons]
    cases g a <;> simp <;> omega

theorem filterMap_length_eq_iff {α β : Type} (g : α → Option β) (l : List α) :
    l.length = (l.filterMap g).length ↔ ∀ a ∈ l, (g a).isSome := by
  induction l with
  | nil => simp
  | cons a l ih =>
    have hle := filterMap_length_le g l
    simp only [List.filterMap_cons, List.mem_cons, forall_eq_or_imp]
    cases hg : g a with
    | none =>
      simp
      omega
    | some b =>
      simp [← ih]

theorem filterMap_all_some {α β : Type} (g : α → Option β) (l : List α)
    (h : ∀ a ∈ l, (g a).isSome) : (l.filterMap g).map some = l.map g := by
  induction l with
  | nil => simp
  | cons a l ih =>
    simp only [List.mem_cons, forall_eq_or_imp] at h
    obtain ⟨ha, hl⟩ := h
    obtain ⟨b, hb⟩ := Option.isSome_iff_exists.mp ha
    simp [List.filterMap_cons, hb, ih hl]

theorem supply_length_iff (e : Entity) (required : List String) :
    required.length = (Scene.supply required e.Components).length ↔ e.satisfies required := by
  rw [supply_eq, filterMap_length_eq_iff]
  unfold Entity.satisfies
  constructor
  · intro h r hr
    exact (lookup_isSome_iff _ _).mp (h r hr)
  · intro h r hr
    exact (lookup_isSome_iff _ _).mpr (h r hr)

theorem addEntities_eq (s : Scene) (system : System) (log : List Call) :
    Scene.addEntities s system log = log ++ s.Entities.flatMap (Scene.addCall system) := by
  rw [← foldl_log]
  simp only [Scene.addEntities]
  congr 1
  funext log entity
  unfold Scene.addCall
  split <;> simp

theorem Init_log_eq (s : Scene) :
    (Scene.Init s).2 = s.Systems.map (fun system => Call.Init system s)
      ++ s.Systems.flatMap (fun system => s.Entities.flatMap (Scene.addCall system)) := by
  unfold Scene.Init
  simp only
  have h1 : (fun log system => Scene.addEntities s system log)
      = fun log system => log ++ s.Entities.flatMap (Scene.addCall system) := by
    funext log system
    exact addEntities_eq s system log
  rw [h1, foldl_log, foldl_log_map (fun system => Call.Init system s)]
  rfl


theorem mem_Init_add (s : Scene) (S : System) (id : Nat) (supply : List Component) :
    Call.Add S id supply ∈ (Scene.Init s).2 ↔
      S ∈ s.Systems ∧ ∃ E ∈ s.Entities, E.ID = id ∧ E.satisfies S.RequiredComponents ∧
        supply = Scene.supply S.RequiredComponents E.Components := by
  rw [Init_log_eq]
  simp only [List.mem_append, List.mem_map, List.mem_flatMap, Scene.addCall]
  constructor
  · rintro (⟨S', _, h⟩ | ⟨S', hS', E, hE, h⟩)
    · exact absurd h (by simp)
    · split at h
      · rename_i hlen
        simp only [List.mem_singleton, Call.Add.injEq] at h
        obtain ⟨rfl, rfl, rfl⟩ := h
        exact ⟨hS', E, hE, rfl, (supply_length_iff E _).mp hlen, rfl⟩
      · simp at h
  · rintro ⟨hS, E, hE, rfl, hsat, rfl⟩
    refine Or.inr ⟨S, hS, E, hE, ?_⟩
    rw [if_pos ((supply_length_iff E _).mpr hsat)]
    simp

theorem supply_of_satisfies (E : Entity) (required : List String) (h : E.satisfies required) :
    (Scene.supply required E.Components).map some
      = required.map (fun r => E.Components.lookup r) := by
  rw [supply_eq]
  exact filterMap_all_some _ _ (fun r hr => (lookup_isSome_iff _ _).mpr (h r hr))

theorem lookup_perm {l₁ l₂ : List (String × Component)} (h : l₁.Perm l₂)
    (hn : (l₁.map Prod.fst).Nodup) (r : String) : l₁.lookup r = l₂.lookup r := by
  induction h with
  | nil => rfl
  | cons x _ ih =>
    obtain ⟨k, v⟩ := x
    simp only [List.map_cons, List.nodup_cons] at hn
    simp only [List.lookup_cons, ih hn.2]
  | swap x y l =>
    obtain ⟨kx, vx⟩ := x
    obtain ⟨ky, vy⟩ := y
    simp only [List.map_cons, List.nodup_cons, List.mem_cons, not_or] at hn
    have hne : ky ≠ kx := hn.1.1
    simp only [List.lookup_cons]
    by_cases h1 : r = ky
    · subst h1
      have : (r == kx) = false := by simpa using hne
      simp [this]
    · have : (r == ky) = false := by simpa using h1
      simp [this]
  | trans h₁ _ ih₁ ih₂ =>
    rw [ih₁ hn, ih₂ ((h₁.map Prod.fst).nodup_iff.mp hn)]

/-! ## Scene.Init and Scene.Update -/

/-- C1: for a system `S` and an entity `E` of the scene, `Init` calls `S.Add`
with `E`'s id and the list built for `E` exactly when every required name of
`S` is a key of `E`'s component map; when ids are unique in the scene, `Init`
calls `S.Add` with `E`'s id at all exactly in that case, so an entity holding
only part of the required names is never added. -/
theorem Scene_Init_matching (s : Scene) (S : System) (E : Entity)
    (hS : S ∈ s.Systems) (hE : E ∈ s.Entities) :
    (Call.Add S E.ID (Scene.supply S.RequiredComponents E.Components) ∈ (Scene.Init s).2
        ↔ ∀ r ∈ S.RequiredComponents, r ∈ E.Components.map Prod.fst) ∧
    ((∀ E' ∈ s.Entities, E'.ID = E.ID → E' = E) →
      ((∃ supply, Call.Add S E.ID supply ∈ (Scene.Init s).2)
        ↔ ∀ r ∈ S.RequiredComponents, r ∈ E.Components.map Prod.fst)) := by
  refine ⟨?_, ?_⟩
  · rw [mem_Init_add]
    constructor
    · rintro ⟨_, E', _, _, hsat, heq⟩
      have h1 := (supply_length_iff E' _).mpr hsat
      rw [← heq] at h1
      exact (supply_length_iff E _).mp h1
    · intro hsat
      exact ⟨hS, E, hE, rfl, hsat, rfl⟩
  · intro huniq
    constructor
    · rintro ⟨supply, h⟩
      obtain ⟨_, E', hE', hid, hsat, _⟩ := (mem_Init_add _ _ _ _).mp h
      rw [huniq E' hE' hid] at hsat
      exact hsat
    · intro hsat
      exact ⟨_, (mem_Init_add _ _ _ _).mpr ⟨hS, E, hE, rfl, hsat, rfl⟩⟩

theorem Scene_Init_matching_witness :
    (Call.Add drawSystem 1 [positionComponent, renderComponent] ∈ (Scene.Init demoScene).2
        ↔ ∀ r ∈ ["Position", "Render"], r ∈ ["Render", "Position"]) ∧
      ((∃ supply, Call.Add drawSystem 1 supply ∈ (Scene.Init demoScene).2)
        ↔ ∀ r ∈ ["Position", "Render"], r ∈ ["Render", "Position"]) :=
  ⟨(Scene_Init_matching demoScene drawSystem fullEntity (by decide) (by decide)).1,
    (Scene_Init_matching demoScene drawSystem fullEntity (by decide) (by decide)).2
      (by decide)⟩

/-- C2: for a system `S` and a matching entity `E` of the scene, `Init` calls
`S.Add` with `E`'s id and a list whose element `i` is the component stored
under the `i`-th required name; every list passed to `S.Add` has this form for
an entity of the scene; and the list does not depend on the order in which the
components are held by the entity. -/
theorem Scene_Init_supply_order (s : Scene) (S : System) (E : Entity)
    (hS : S ∈ s.Systems) (hE : E ∈ s.Entities)
    (hsat : ∀ r ∈ S.RequiredComponents, r ∈ E.Components.map Prod.fst) :
    (∃ supply, Call.Add S E.ID supply ∈ (Scene.Init s).2 ∧
      supply.map some = S.RequiredComponents.map (fun r => E.Components.lookup r)) ∧
    (∀ id supply, Call.Add S id supply ∈ (Scene.Init s).2 →
      ∃ E' ∈ s.Entities, E'.ID = id ∧
        supply.map some = S.RequiredComponents.map (fun r => E'.Components.lookup r)) ∧
    (∀ components, components.Perm E.Components → (components.map Prod.fst).Nodup →
      Scene.supply S.RequiredComponents components
        = Scene.supply S.RequiredComponents E.Components) := by
  refine ⟨?_, ?_, ?_⟩
  · exact ⟨_, (mem_Init_add _ _ _ _).mpr ⟨hS, E, hE, rfl, hsat, rfl⟩,
      supply_of_satisfies E _ hsat⟩
  · intro id supply h
    obtain ⟨_, E', hE', hid, hsat', rfl⟩ := (mem_Init_add _ _ _ _).mp h
    exact ⟨E', hE', hid, supply_of_satisfies E' _ hsat'⟩
  · intro components hperm hnd
    rw [supply_eq, supply_eq]
    congr 1
    funext r
    exact lookup_perm hperm hnd r

theorem Scene_Init_supply_order_witness :
    (∃ supply, Call.Add drawSystem 1 supply ∈ (Scene.Init demoScene).2 ∧
      supply.map some = [some positionComponent, some renderComponent]) ∧
      Scene.supply ["Position", "Render"]
          [("Position", positionComponent), ("Render", renderComponent)]
        = Scene.supply ["Position", "Render"]
          [("Render", renderComponent), ("Position", positionComponent)] :=
  ⟨(Scene_Init_supply_order demoScene drawSystem fullEntity
      (by decide) (by decide) (by decide)).1,
    (Scene_Init_supply_order demoScene drawSystem fullEntity
      (by decide) (by decide) (by decide)).2.2
      [("Position", positionComponent), ("Render", renderComponent)]
      (List.Perm.swap _ _ _) (by decide)⟩

/-- C3: `Scene.Update(delta)` calls `Update(delta)` on each system of the scene,
once each, in the order of `Systems`, calls nothing else and leaves the scene
as it was. -/
theorem Scene_Update_fanout (s : Scene) (delta : Int) :
    Scene.Update s delta = (s, s.Systems.map (fun S => Call.Update S delta)) := by
  unfold Scene.Update
  rw [foldl_log_map (fun S => Call.Update S delta)]
  rfl

/-- C7: the calls made by `Scene.Init` are `Init(scene)` on each system, once
each, in the order of `Systems`, followed by `Add` calls only: every `Init`
call precedes every `Add` call and no `Update` call is made. -/
theorem Scene_Init_lifecycle (s : Scene) :
    ∃ adds, (Scene.Init s).2 = s.Systems.map (fun S => Call.Init S s) ++ adds ∧
      ∀ c ∈ adds, ∃ S id supply, c = Call.Add S id supply := by
  refine ⟨_, Init_log_eq s, ?_⟩
  intro c hc
  simp only [List.mem_flatMap, Scene.addCall] at hc
  obtain ⟨S, _, E, _, h⟩ := hc
  split at h
  · exact ⟨S, E.ID, _, by simpa using h⟩
  · simp at h

/-- C8: the `Add` calls made by `Scene.Init` are, system by system in the order
of `Systems`, one call for each entity of the scene that holds every required
name of the system, in the order of `Entities`, and none for any other
entity. -/
theorem Scene_Init_adds (s : Scene) :
    (Scene.Init s).2.filter Call.isAdd =
      s.Systems.flatMap (fun S =>
        (s.Entities.filter
            (fun E => decide (∀ r ∈ S.RequiredComponents, r ∈ E.Components.map Prod.fst))).map
          (fun E => Call.Add S E.ID (Scene.supply S.RequiredComponents E.Components))) := by
  rw [Init_log_eq, List.filter_append]
  have h1 : (s.Systems.map (fun system => Call.Init system s)).filter Call.isAdd = [] := by
    simp [List.filter_eq_nil_iff, Call.isAdd]
  have h2 : ∀ S : System, s.Entities.flatMap (Scene.addCall S) =
      (s.Entities.filter
          (fun E => decide (∀ r ∈ S.RequiredComponents, r ∈ E.Components.map Prod.fst))).map
        (fun E => Call.Add S E.ID (Scene.supply S.RequiredComponents E.Components)) := by
    intro S
    induction s.Entities with
    | nil => rfl
    | cons E l ih =>
      rw [List.flatMap_cons, ih, List.filter_cons]
      unfold Scene.addCall
      by_cases hsat : E.satisfies S.RequiredComponents
      · rw [if_pos ((supply_length_iff E _).mpr hsat)]
        have : decide (∀ r ∈ S.RequiredComponents, r ∈ E.Components.map Prod.fst) = true :=
          decide_eq_true hsat
        simp [this]
      · rw [if_neg (fun h => hsat ((supply_length_iff E _).mp h))]
        have : decide (∀ r ∈ S.RequiredComponents, r ∈ E.Components.map Prod.fst) = false :=
          decide_eq_false hsat
        simp [this]
  have h3 : ∀ l : List Call, (∀ c ∈ l, c.isAdd = true) → l.filter Call.isAdd = l := by
    intro l hl
    exact List.filter_eq_self.mpr hl
  rw [h1, List.nil_append]
  simp only [h2]
  apply h3
  intro c hc
  simp only [List.mem_flatMap, List.mem_map] at hc
  obtain ⟨_, _, _, _, rfl⟩ := hc
  rfl

theorem lookup_mem (components : List (String × Component)) (r : String) (c : Component)
    (h : components.lookup r = some c) : (r, c) ∈ components := by
  induction components with
  | nil => simp at h
  | cons kv rest ih =>
    obtain ⟨k, v⟩ := kv
    by_cases hk : r = k
    · subst hk
      simp only [List.lookup_cons_self, Option.some.injEq] at h
      subst h
      exact List.mem_cons_self _ _
    · have hb : (r == k) = false := by simpa using hk
      simp only [List.lookup_cons, hb] at h
      exact List.mem_cons_of_mem _ (ih h)

theorem names_of_lookup (components : List (String × Component))
    (hk : ∀ kv ∈ components, kv.2.Name = kv.1) (required : List String) :
    ∀ supply : List Component,
      supply.map some = required.map (fun r => components.lookup r) →
      supply.map Component.Name = required := by
  induction required with
  | nil => intro supply h; simpa using h
  | cons r rest ih =>
    intro supply h
    cases supply with
    | nil => simp at h
    | cons c cs =>
      simp only [List.map_cons, List.cons.injEq] at h ⊢
      exact ⟨hk _ (lookup_mem _ _ _ h.1.symm), ih cs h.2⟩

/-- C6: on a scene whose entities store each component under the component's
own `Name()`, every list that `Scene.Init` passes to a system's `Add` has as
many elements as the system has required names, the component at index `i` has
the `i`-th required name as its `Name()`, and the list is, element by element,
what an entity of the scene with the passed id stores under the required
names. -/
theorem Scene_Init_supply_invariant (s : Scene) (hk : ∀ E ∈ s.Entities, E.keyedByName)
    (S : System) (id : Nat) (supply : List Component)
    (h : Call.Add S id supply ∈ (Scene.Init s).2) :
    supply.length = S.RequiredComponents.length ∧
    (∀ (i : Nat) (h1 : i < supply.length) (h2 : i < S.RequiredComponents.length),
      (supply.get ⟨i, h1⟩).Name = S.RequiredComponents.get ⟨i, h2⟩) ∧
    (∃ E ∈ s.Entities, E.ID = id ∧
      supply.map some = S.RequiredComponents.map (fun r => E.Components.lookup r)) := by
  obtain ⟨_, E, hE, hid, hsat, rfl⟩ := (mem_Init_add _ _ _ _).mp h
  have hm := names_of_lookup E.Components (hk E hE) _ _ (supply_of_satisfies E _ hsat)
  refine ⟨((supply_length_iff E _).mpr hsat).symm, ?_, E, hE, hid, supply_of_satisfies E _ hsat⟩
  intro i h1 h2
  have e : (List.map Component.Name (Scene.supply S.RequiredComponents E.Components))[i]?
      = S.RequiredComponents[i]? := by rw [hm]
  simpa [List.getElem?_eq_getElem, h1, h2] using e

theorem Scene_Init_supply_invariant_witness :
    [positionComponent, renderComponent].length = ["Position", "Render"].length ∧
      (∀ (i : Nat) (h1 : i < [positionComponent, renderComponent].length)
          (h2 : i < ["Position", "Render"].length),
        ([positionComponent, renderComponent].get ⟨i, h1⟩).Name
          = ["Position", "Render"].get ⟨i, h2⟩) ∧
      (∃ E ∈ demoScene.Entities, E.ID = 1 ∧
        [some positionComponent, some renderComponent]
          = ["Position", "Render"].map (fun r => E.Components.lookup r)) :=
  Scene_Init_supply_invariant demoScene (by decide) drawSystem 1
    [positionComponent, renderComponent] (by decide)

/-- C9, amended: `Scene.Init` and `Scene.Update` leave the scene as it was; on
a scene without systems they call nothing; on a scene without entities `Init`
calls `Init` on each system and no `Add`, and `Update` calls `Update` on each
system. -/
theorem Scene_empty_lists (s : Scene) (delta : Int) :
    (Scene.Init s).1 = s ∧ (Scene.Update s delta).1 = s ∧
    (s.Systems = [] → (Scene.Init s).2 = [] ∧ (Scene.Update s delta).2 = []) ∧
    (s.Entities = [] →
      (Scene.Init s).2 = s.Systems.map (fun S => Call.Init S s) ∧
      (Scene.Update s delta).2 = s.Systems.map (fun S => Call.Update S delta)) := by
  have hU : ∀ (l : List System), l.foldl (fun log system => log ++ [Call.Update system delta]) []
      = l.map (fun S => Call.Update S delta) := by
    intro l
    rw [foldl_log_map (fun S => Call.Update S delta)]
    rfl
  refine ⟨rfl, rfl, ?_, ?_⟩
  · intro h0
    rw [Init_log_eq]
    simp [Scene.Update, h0]
  · intro h0
    rw [Init_log_eq]
    refine ⟨?_, ?_⟩
    · simp [h0]
    · exact hU _

theorem Scene_empty_lists_witness :
    ((Scene.Init ⟨[fullEntity], []⟩).2 = [] ∧ (Scene.Update ⟨[fullEntity], []⟩ 16).2 = []) ∧
      ((Scene.Init emptyEntitiesScene).2
          = [Call.Init drawSystem emptyEntitiesScene, Call.Init moveSystem emptyEntitiesScene] ∧
        (Scene.Update emptyEntitiesScene 16).2
          = [Call.Update drawSystem 16, Call.Update moveSystem 16]) :=
  ⟨(Scene_empty_lists ⟨[fullEntity], []⟩ 16).2.2.1 rfl,
    (Scene_empty_lists emptyEntitiesScene 16).2.2.2 rfl⟩

/-- C9 as stated fails: on a scene with two systems and no entity, `Init` calls
both systems' `Init` and `Update` calls both systems' `Update`. -/
theorem Scene_empty_entities_counterexample :
    emptyEntitiesScene.Entities = [] ∧
      (Scene.Init emptyEntitiesScene).2
        = [Call.Init drawSystem emptyEntitiesScene, Call.Init moveSystem emptyEntitiesScene] ∧
      (Scene.Update emptyEntitiesScene 16).2
        = [Call.Update drawSystem 16, Call.Update moveSystem 16] := by
  decide

/-! ## The mailbox -/

theorem mapGet_mapSet {V : Type} (m : List (String × List V)) (k k' : String) (v : List V) :
    mapGet (mapSet m k v) k' = if k' = k then v else mapGet m k' := by
  induction m with
  | nil =>
    by_cases h : k' = k
    · subst h; simp [mapSet, mapGet]
    · have hb : (k' == k) = false := by simpa using h
      simp [mapSet, mapGet, List.lookup_cons, hb, h]
  | cons kv rest ih =>
    obtain ⟨k₀, v₀⟩ := kv
    unfold mapSet
    by_cases h0 : k₀ = k
    · subst h0
      rw [if_pos rfl]
      by_cases h : k' = k₀
      · subst h; simp [mapGet]
      · have hb : (k' == k₀) = false := by simpa using h
        simp [mapGet, List.lookup_cons, hb, h]
    · rw [if_neg h0]
      by_cases h : k' = k₀
      · subst h
        have hne : ¬ k' = k := h0
        simp [mapGet, hne]
      · have hb : (k' == k₀) = false := by simpa using h
        have := ih
        simp only [mapGet, List.lookup_cons, hb] at this ⊢
        exact this

theorem mapGet_Listen (mb : mailBox) (k k' : String) (f : Callback) :
    mapGet (mb.Listen k f).listeners k'
      = mapGet mb.listeners k' ++ (if k = k' then [f] else []) := by
  unfold mailBox.Listen
  simp only [mapGet_mapSet]
  by_cases h : k' = k
  · subst h; simp
  · have h' : ¬ k = k' := fun e => h e.symm
    simp [h, h']

theorem mapGet_listenAll (regs : List (String × Callback)) (mb : mailBox) (k : String) :
    mapGet (mb.listenAll regs).listeners k
      = mapGet mb.listeners k ++ (regs.filter (fun r => decide (r.1 = k))).map Prod.snd := by
  induction regs generalizing mb with
  | nil => simp [mailBox.listenAll]
  | cons r rest ih =>
    have hstep : mb.listenAll (r :: rest) = (mb.Listen r.1 r.2).listenAll rest := rfl
    rw [hstep, ih, mapGet_Listen, List.filter_cons]
    by_cases h : r.1 = k
    · simp [h]
    · simp [h]

theorem Send_eq (mb : mailBox) (msg : Message) :
    mb.Send msg = (mb, (mapGet mb.listeners msg.Name).map (fun f => (f, msg))) := by
  unfold mailBox.Send
  rw [foldl_log_map (fun f => (f, msg))]
  rfl

/-- C4: after any sequence `regs` of `Listen` calls on a mailbox, `Send(msg)`
invokes, with `msg`, the callbacks listening for `msg.Name()` before the
sequence followed by the callbacks that `regs` registered under `msg.Name()`,
once per registration and in registration order, and no other callback; on the
initially empty `MailBox`, `Listen("X", f1)`, `Listen("X", f2)`, `Send` of a
message named `X` invokes `f1` then `f2`. -/
theorem mailBox_delivery_order (mb : mailBox) (regs : List (String × Callback))
    (msg : Message) :
    ((mb.listenAll regs).Send msg).2
        = (mapGet mb.listeners msg.Name
            ++ (regs.filter (fun r => decide (r.1 = msg.Name))).map Prod.snd).map
          (fun f => (f, msg)) ∧
      ((MailBox.listenAll regs).Send msg).2
        = ((regs.filter (fun r => decide (r.1 = msg.Name))).map Prod.snd).map
          (fun f => (f, msg)) ∧
      ∀ (f1 f2 : Callback) (payload : Nat),
        (((MailBox.Listen "X" f1).Listen "X" f2).Send ⟨"X", payload⟩).2
          = [(f1, ⟨"X", payload⟩), (f2, ⟨"X", payload⟩)] := by
  refine ⟨?_, ?_, ?_⟩
  · rw [Send_eq, mapGet_listenAll]
  · rw [Send_eq, mapGet_listenAll]
    simp [MailBox, mapGet]
  · intro f1 f2 payload
    rw [Send_eq, mapGet_Listen, mapGet_Listen]
    simp [MailBox, mapGet]

/-- C5: `Send` of a message whose name has no listener, whether the name maps
to an empty list or was never passed to `Listen`, invokes no callback, returns,
and leaves the mailbox as it was. -/
theorem mailBox_Send_no_listener (mb : mailBox) (msg : Message) :
    (mapGet mb.listeners msg.Name = [] → mb.Send msg = (mb, [])) ∧
    (msg.Name ∉ mb.listeners.map Prod.fst → mb.Send msg = (mb, [])) ∧
    (∀ regs : List (String × Callback), (∀ r ∈ regs, r.1 ≠ msg.Name) →
      (MailBox.listenAll regs).Send msg = (MailBox.listenAll regs, [])) := by
  refine ⟨?_, ?_, ?_⟩
  · intro h
    rw [Send_eq, h]
    rfl
  · intro h
    have hnone : mb.listeners.lookup msg.Name = none := by
      generalize mb.listeners = m at h
      induction m with
      | nil => rfl
      | cons kv rest ih =>
        obtain ⟨k, v⟩ := kv
        simp only [List.map_cons, List.mem_cons, not_or] at h
        have hb : (msg.Name == k) = false := by simpa using h.1
        simp only [List.lookup_cons, hb]
        exact ih h.2
    rw [Send_eq]
    simp [mapGet, hnone]
  · intro regs h
    rw [Send_eq, mapGet_listenAll]
    have hf : regs.filter (fun r => decide (r.1 = msg.Name)) = [] := by
      rw [List.filter_eq_nil_iff]
      intro r hr
      simpa using h r hr
    simp [hf, MailBox, mapGet]

theorem mailBox_Send_no_listener_witness :
    (MailBox.Listen "X" 1).Send ⟨"Y", 0⟩ = (MailBox.Listen "X" 1, []) ∧
      (⟨[("Y", [])]⟩ : mailBox).Send ⟨"Y", 0⟩ = (⟨[("Y", [])]⟩, []) ∧
      (MailBox.listenAll [("X", 1), ("Z", 2)]).Send ⟨"Y", 0⟩
        = (MailBox.listenAll [("X", 1), ("Z", 2)], []) :=
  ⟨(mailBox_Send_no_listener (MailBox.Listen "X" 1) ⟨"Y", 0⟩).2.1 (by decide),
    (mailBox_Send_no_listener ⟨[("Y", [])]⟩ ⟨"Y", 0⟩).1 (by decide),
    (mailBox_Send_no_listener MailBox ⟨"Y", 0⟩).2.2 [("X", 1), ("Z", 2)] (by decide)⟩

/-! ## VertexArray.SetLayout -/

/-- C10 fails on the code: on a vertex array without a layout, `SetLayout` of
the empty layout returns with the layout still empty, so the guard of line 87
lets the next call through. A later `SetLayout([VEC2])` sets the layout to
`[VEC2]` and the vao to a new name and then panics in `gl.Ptr`; a later
`SetLayout` of the empty layout returns with a new vao. -/
theorem VertexArray_SetLayout_twice :
    freshArray.SetLayout ⟨[]⟩ freshGL
        = Outcome.returned ⟨⟨[]⟩, [], 1, 0, []⟩
            ⟨2, [GLCall.GenVertexArrays 1 1, GLCall.BindVertexArray 1]⟩ ∧
      VertexArray.SetLayout ⟨⟨[]⟩, [], 1, 0, []⟩ ⟨[VEC2]⟩
          ⟨2, [GLCall.GenVertexArrays 1 1, GLCall.BindVertexArray 1]⟩
        = Outcome.panicked ⟨⟨[VEC2]⟩, [], 2, 0, []⟩
            ⟨3, [GLCall.GenVertexArrays 1 1, GLCall.BindVertexArray 1,
                 GLCall.GenVertexArrays 1 2, GLCall.BindVertexArray 2]⟩ ∧
      VertexArray.SetLayout ⟨⟨[]⟩, [], 1, 0, []⟩ ⟨[]⟩
          ⟨2, [GLCall.GenVertexArrays 1 1, GLCall.BindVertexArray 1]⟩
        = Outcome.returned ⟨⟨[]⟩, [], 2, 0, []⟩
            ⟨3, [GLCall.GenVertexArrays 1 1, GLCall.BindVertexArray 1,
                 GLCall.GenVertexArrays 1 2, GLCall.BindVertexArray 2]⟩ := by
  decide

/-- The guard of line 87: on a vertex array whose layout is not empty,
`SetLayout` returns at once, with no field changed and no OpenGL call made. -/
theorem SetLayout_guard (va : VertexArray) (layout : VertexLayout) (gl : GLContext)
    (h : va.layout.layout ≠ []) : va.SetLayout layout gl = Outcome.returned va gl := by
  unfold VertexArray.SetLayout
  rw [if_pos]
  simpa using h

/-- Past the guard, a non-empty layout is stored and a vertex array generated,
and the call panics in the first round of the loop of lines 106-114. -/
theorem SetLayout_panics (va : VertexArray) (elem : ElementType) (rest : List ElementType)
    (gl : GLContext) (h : va.layout.layout = []) :
    va.SetLayout ⟨elem :: rest⟩ gl
      = Outcome.panicked { va with layout := ⟨elem :: rest⟩, vao := gl.next % 2 ^ 32 }
          ((gl.GenVertexArrays).2.call (GLCall.BindVertexArray (gl.next % 2 ^ 32))) := by
  unfold VertexArray.SetLayout
  rw [if_neg (by simp [h])]
  rfl

end Gome
